import Mathlib

/-!
Verification of the skill-retrieval / memory-service subsystem.

The file embeds, as executable Lean definitions:
- `SimpleMemoryService` from maf/scripts/maf/memory-service-fallback.py
  (file-backed per-agent memory store, JSONL lines);
- `UnifiedMemoryService.retrieve_relevant_memories` from
  scripts/maf/memory-service-unified.py (Memlayer with catch-and-fallback);
- `BeadAssigner` from scripts/maf/bead-assigner.py (file-based reservations);
- the components of the Skill Retrieval and Relevance Tracking Engine
  (RelevanceScorer, SessionTrackingStore, GapRecorder, IntentBooster
  histories, SkillRetrievalEngine), which are described by the design
  document but are not present in the source tree; those definitions are
  modelled from the spec and say so in their doc comments.

External library calls (json.loads, json.dump, datetime parsing) are
modelled as explicit function parameters (a decoder, an encoder, a
timestamp parser), mirroring that they are external to the program.
-/

/-! ## String helpers (kernel-reducible models of the Python string ops) -/

/-- Model of Python list/char-level prefix test, used to build substring search. -/
def isPrefixL : List Char → List Char → Bool
  | [], _ => true
  | _ :: _, [] => false
  | a :: as, b :: bs => a == b && isPrefixL as bs

/-- `containsL hay pat` models Python `pat in hay` on character lists. -/
def containsL : List Char → List Char → Bool
  | [], pat => pat.isEmpty
  | c :: t, pat => isPrefixL pat (c :: t) || containsL t pat

/-- Model of Python `str.strip()` (trim surrounding whitespace). -/
def pyStrip (s : String) : String :=
  ⟨((s.data.dropWhile Char.isWhitespace).reverse.dropWhile Char.isWhitespace).reverse⟩

/-- Model of Python `str.lower()`. -/
def lowerStr (s : String) : String := ⟨s.data.map Char.toLower⟩

/-- `pyIn pat s` models Python `pat in s` (case sensitive). -/
def pyIn (pat s : String) : Bool := containsL s.data pat.data

/-- `pyInCI pat s` models `re.search(pat, s, re.IGNORECASE)` for a literal
pattern given in lower case, which is case-insensitive substring search. -/
def pyInCI (pat s : String) : Bool := pyIn pat (lowerStr s)

/-- Split a character list at newline characters (model of `str.split("\n")`). -/
def splitNL : List Char → List (List Char)
  | [] => [[]]
  | c :: t =>
    match splitNL t with
    | [] => [[]]
    | l :: ls => if c = '\n' then [] :: l :: ls else (c :: l) :: ls

/-- Model of Python `content.split("\n")`. -/
def pySplitLines (content : String) : List String :=
  (splitNL content.data).map (fun cs => ⟨cs⟩)

/-- The last `n` elements of a list: model of the Python slice `xs[-n:]` for `n > 0`. -/
def lastN (n : Nat) (xs : List α) : List α := xs.drop (xs.length - n)

/-! ## SimpleMemoryService (memory-service-fallback.py)

One JSONL line of an agent memory file decodes to a `MemoryRecord`; the
decoder (`json.loads` plus field access) and encoder (`json.dump`) are
passed in as functions.  The storage directory is an association list
from agent name to the list of raw lines of its `_memories.jsonl` file. -/

structure MemoryRecord where
  agent : String
  timestamp : String
  bead_id : Option String
  code_changes : List String
  decisions : List String
  context : List String
  errors : List String
  communication : List String
deriving DecidableEq

/-- A retrieved item as produced by `retrieve_relevant_memories`. -/
structure MemoryItem where
  content : String
  timestamp : String
  bead_id : Option String
deriving DecidableEq

/-- The organized-by-category result dictionary. -/
structure Organized where
  code_changes : List MemoryItem
  decisions : List MemoryItem
  context : List MemoryItem
  errors : List MemoryItem
  communication : List MemoryItem
deriving DecidableEq

/-- The on-disk storage directory: agent name to raw lines of its JSONL file. -/
abbrev Storage := List (String × List String)

namespace SimpleMemoryService

/-- `_empty_categories` from the source. -/
def empty_categories : Organized := ⟨[], [], [], [], []⟩

/-- Reading a JSONL file the way `retrieve_relevant_memories`,
`get_agent_summary` and `_cleanup_old_memories` do: blank lines are
skipped, `json.loads` is called on the rest with NO exception handling,
so a line the decoder rejects raises (modelled as `Except.error`). -/
def readMemoryLines (dec : String → Option MemoryRecord) :
    List String → Except String (List MemoryRecord)
  | [] => .ok []
  | line :: rest =>
    if pyStrip line = "" then readMemoryLines dec rest
    else
      match dec line with
      | none => .error "JSONDecodeError"
      | some m =>
        match readMemoryLines dec rest with
        | .error e => .error e
        | .ok ms => .ok (m :: ms)

/-- Reading a JSONL file the way `clean_memories` does: blank lines are
skipped and a `json.JSONDecodeError` is caught and the line skipped. -/
def readMemoryLinesSkip (dec : String → Option MemoryRecord) :
    List String → List MemoryRecord
  | [] => []
  | line :: rest =>
    if pyStrip line = "" then readMemoryLinesSkip dec rest
    else
      match dec line with
      | none => readMemoryLinesSkip dec rest
      | some m => m :: readMemoryLinesSkip dec rest

def codeKeywords : List String := ["edit:", "create:", "modify:", "file:", "path:"]

def codeExts : List String := [".ts", ".js", ".py", ".json", ".yaml", ".md"]

def decisionPatterns : List String :=
  ["decided to", "will use", "chose to", "going to", "plan to", "architecture", "design"]

def errorPatterns : List String :=
  ["error:", "fix:", "bug:", "issue:", "problem:", "solution:"]

/-- One loop iteration of the code-changes extraction in `extract_memories`. -/
def codeChangeOf (line : String) : Option String :=
  if codeKeywords.any (fun k => pyInCI k line) then some (pyStrip line)
  else if codeExts.any (fun e => pyIn e line) then
    if (pyStrip line).length < 200 then some (pyStrip line) else none
  else none

/-- One loop iteration of the decisions extraction in `extract_memories`. -/
def decisionOf (line : String) : Option String :=
  if decisionPatterns.any (fun p => pyInCI p line) then some (pyStrip line) else none

/-- One loop iteration of the context extraction in `extract_memories`. -/
def contextOf (line : String) : Option String :=
  if pyInCI "working on" line || pyInCI "task" line then some (pyStrip line) else none

/-- One loop iteration of the errors extraction in `extract_memories`. -/
def errorOf (line : String) : Option String :=
  if errorPatterns.any (fun p => pyInCI p line) then some (pyStrip line) else none

/-- `extract_memories` from the source; `now` stands for
`datetime.now().isoformat()`. -/
def extract_memories (now : String) (content : String) (agent_name : String)
    (bead_id : Option String) : MemoryRecord :=
  let lines := pySplitLines content
  let code_changes := lines.filterMap codeChangeOf
  let decisions := lines.filterMap decisionOf
  let context0 := lines.filterMap contextOf
  let context :=
    match bead_id with
    | some b => if b = "" then context0 else ("Current bead: " ++ b) :: context0
    | none => context0
  let errors := lines.filterMap errorOf
  { agent := agent_name
    timestamp := now
    bead_id := bead_id
    code_changes := code_changes.take 10
    decisions := decisions.take 5
    context := context.take 5
    errors := errors.take 5
    communication := [] }

/-- The per-memory appending step of the organize loop in
`retrieve_relevant_memories` (categories are visited in the packaging
order of the dictionary). -/
def addToOrganized (org : Organized) (m : MemoryRecord) : Organized :=
  let item := fun (c : String) =>
    ({ content := c, timestamp := m.timestamp, bead_id := m.bead_id } : MemoryItem)
  { code_changes := org.code_changes ++ m.code_changes.map item
    decisions := org.decisions ++ m.decisions.map item
    context := org.context ++ m.context.map item
    errors := org.errors ++ m.errors.map item
    communication := org.communication ++ m.communication.map item }

/-- `retrieve_relevant_memories` from the source.  The `query` argument is
accepted and, as in the source, never used.  A missing agent name (or the
empty string, which is falsy in Python) and a missing file both yield the
empty categories; a line the decoder rejects propagates the decode error. -/
def retrieve_relevant_memories (dec : String → Option MemoryRecord)
    (storage : Storage) (query : String) (agent_name : Option String)
    (bead_id : Option String) (limit : Nat) : Except String Organized :=
  match agent_name with
  | none => .ok empty_categories
  | some a =>
    if a = "" then .ok empty_categories
    else
      match storage.lookup a with
      | none => .ok empty_categories
      | some lines =>
        match readMemoryLines dec lines with
        | .error e => .error e
        | .ok memories =>
          let memories :=
            match bead_id with
            | some b => if b = "" then memories
                        else memories.filter (fun m => m.bead_id == some b)
            | none => memories
          let memories := if limit ≠ 0 then lastN limit memories else memories
          .ok (memories.foldl addToOrganized empty_categories)

/-- `_cleanup_old_memories` from the source; the file argument is `none`
when the file does not exist (the early return).  On success the file is
rewritten with the encodings of the kept records. -/
def cleanup_old_memories (dec : String → Option MemoryRecord)
    (enc : MemoryRecord → String) (file : Option (List String)) (keep : Nat) :
    Except String (Option (List String)) :=
  match file with
  | none => .ok none
  | some lines =>
    match readMemoryLines dec lines with
    | .error e => .error e
    | .ok memories => .ok (some ((lastN keep memories).map enc))

/-- The summary dictionary built by `get_agent_summary`. -/
structure AgentSummary where
  agent : String
  total_memories : Nat
  categories : List (String × Nat)
  recent_beads : List String
deriving DecidableEq

/-- The per-category item counts accumulated by the `get_agent_summary`
loop (the five keys appear once the first memory is processed). -/
def summaryCategories (ms : List MemoryRecord) : List (String × Nat) :=
  if ms.isEmpty then []
  else
    [("code_changes", (ms.map (fun m => m.code_changes.length)).sum),
     ("decisions", (ms.map (fun m => m.decisions.length)).sum),
     ("context", (ms.map (fun m => m.context.length)).sum),
     ("errors", (ms.map (fun m => m.errors.length)).sum),
     ("communication", (ms.map (fun m => m.communication.length)).sum)]

/-- `get_agent_summary` from the source.  The `hours` argument is accepted
and, as in the source, the cutoff it implies is never applied.  The bead
set is modelled as a deduplicated list. -/
def get_agent_summary (dec : String → Option MemoryRecord) (storage : Storage)
    (agent_name : String) (hours : Nat) : Except String AgentSummary :=
  match storage.lookup agent_name with
  | none => .ok { agent := agent_name, total_memories := 0, categories := [], recent_beads := [] }
  | some lines =>
    match readMemoryLines dec lines with
    | .error e => .error e
    | .ok memories =>
      let memories := lastN 20 memories
      .ok { agent := agent_name
            total_memories := memories.length
            categories := summaryCategories memories
            recent_beads := ((memories.filterMap (fun m => m.bead_id)).filter (fun b => b ≠ "")).dedup }

/-- The results dictionary of `clean_memories`. -/
structure CleanResults where
  scanned_files : Nat
  memories_before : Nat
  memories_deleted : Nat
  memories_kept : Nat
  affected_agents : List String
  affected_files : List String
  dry_run : Bool
deriving DecidableEq

/-- `should_delete` of one memory in the `clean_memories` loop: only the
`age` and `all` scopes delete, the timestamp parse
(`datetime.fromisoformat` after the Z replacement, modelled by `ptime`)
must succeed, and the parsed time must be before the cutoff; a memory
whose timestamp does not parse is kept. -/
def shouldDelete (ptime : String → Option Int) (cutoff : Int) (scope : String)
    (m : MemoryRecord) : Bool :=
  if scope = "age" ∨ scope = "all" then
    match ptime m.timestamp with
    | some t => t < cutoff
    | none => false
  else false

/-- One `clean_memories` loop iteration over a single memory file, given
the accumulated results; returns the updated results and the file (with
its new contents when a non-dry run deleted something). -/
def cleanFileStep (dec : String → Option MemoryRecord) (enc : MemoryRecord → String)
    (ptime : String → Option Int) (cutoff : Int) (scope : String) (dry_run : Bool)
    (acc : CleanResults) (file : String × List String) :
    CleanResults × (String × List String) :=
  let memories := readMemoryLinesSkip dec file.2
  if memories.isEmpty then (acc, file)
  else
    let kept := memories.filter (fun m => ¬ shouldDelete ptime cutoff scope m)
    let deleted := memories.countP (fun m => shouldDelete ptime cutoff scope m)
    let file_agent := file.1
    let affects := decide (0 < deleted) && ! acc.affected_agents.contains file_agent
    let acc' : CleanResults :=
      { acc with
        scanned_files := acc.scanned_files + 1
        memories_before := acc.memories_before + memories.length
        memories_deleted := acc.memories_deleted + deleted
        memories_kept := acc.memories_kept + kept.length
        affected_agents := if affects then acc.affected_agents ++ [file_agent]
                           else acc.affected_agents
        affected_files := if affects then acc.affected_files ++ [file_agent ++ "_memories.jsonl"]
                          else acc.affected_files }
    let newLines := if ¬ dry_run ∧ 0 < deleted then kept.map enc else file.2
    (acc', (file.1, newLines))

/-- The `clean_memories` loop over the selected memory files. -/
def cleanFilesGo (dec : String → Option MemoryRecord) (enc : MemoryRecord → String)
    (ptime : String → Option Int) (cutoff : Int) (scope : String) (dry_run : Bool) :
    CleanResults → List (String × List String) →
    CleanResults × List (String × List String)
  | acc, [] => (acc, [])
  | acc, f :: fs =>
    let step := cleanFileStep dec enc ptime cutoff scope dry_run acc f
    let rest := cleanFilesGo dec enc ptime cutoff scope dry_run step.1 fs
    (rest.1, step.2 :: rest.2)

/-- Replace the contents of the (first) file of the given agent. -/
def replaceFile (a : String) (newLines : List String) : Storage → Storage
  | [] => []
  | (k, v) :: t => if k = a then (k, newLines) :: t else (k, v) :: replaceFile a newLines t

/-- `clean_memories` from the source.  `cutoff` stands for
`datetime.now() - timedelta(days=days)`; `ptime` models ISO-timestamp
parsing.  An agent filter that is `None` or empty (falsy) selects all
files; a named agent whose file is missing returns the zero results. -/
def clean_memories (dec : String → Option MemoryRecord) (enc : MemoryRecord → String)
    (ptime : String → Option Int) (cutoff : Int) (storage : Storage)
    (agent_name : Option String) (scope : String) (dry_run : Bool) :
    CleanResults × Storage :=
  let init : CleanResults := ⟨0, 0, 0, 0, [], [], dry_run⟩
  if storage.isEmpty then (init, storage)
  else
    match agent_name with
    | some a =>
      if a = "" then cleanFilesGo dec enc ptime cutoff scope dry_run init storage
      else
        match storage.lookup a with
        | some lines =>
          let step := cleanFileStep dec enc ptime cutoff scope dry_run init (a, lines)
          (step.1, replaceFile a step.2.2 storage)
        | none => (init, storage)
    | none => cleanFilesGo dec enc ptime cutoff scope dry_run init storage

end SimpleMemoryService

/-! ## UnifiedMemoryService (memory-service-unified.py)

`retrieve_relevant_memories` tries the Memlayer service when it is in use
and initialized; any exception from it is caught (`using_memlayer` is set
to `False`) and the fallback service result is returned instead.  The
Memlayer call is modelled by its outcome, an `Except`. -/

namespace UnifiedMemoryService

/-- `UnifiedMemoryService.retrieve_relevant_memories` from the source:
`using_memlayer` and `memlayer_service` model `self.using_memlayer` and
`self.memlayer_service is not None`; `memlayerResult` is the outcome of
the Memlayer call. -/
def retrieve_relevant_memories (using_memlayer : Bool) (memlayer_service : Bool)
    (memlayerResult : Except String Organized)
    (dec : String → Option MemoryRecord) (storage : Storage)
    (query : String) (agent_name : Option String) (bead_id : Option String)
    (limit : Nat) : Except String Organized :=
  if using_memlayer && memlayer_service then
    match memlayerResult with
    | .ok r => .ok r
    | .error _ =>
      SimpleMemoryService.retrieve_relevant_memories dec storage query agent_name bead_id limit
  else
    SimpleMemoryService.retrieve_relevant_memories dec storage query agent_name bead_id limit

end UnifiedMemoryService

/-! ## BeadAssigner (bead-assigner.py)

Reservations live one-per-file, named by bead id, under
`.agent-mail/reservations`;
the directory is modelled as an association list keyed by bead id. -/

structure Reservation where
  bead_id : String
  agent_id : String
  reserved_at : String
  expires_at : String
  status : String
deriving DecidableEq

abbrev ReservationsDir := List (String × Reservation)

namespace BeadAssigner

/-- `is_bead_reserved`: the reservation file exists. -/
def is_bead_reserved (dir : ReservationsDir) (bead_id : String) : Bool :=
  (dir.lookup bead_id).isSome

/-- `reserve_bead` from the source: refuse if already reserved, otherwise
write the reservation file and succeed.  `reserved_at` and `expires_at`
stand for the two `datetime.utcnow()`-derived strings. -/
def reserve_bead (dir : ReservationsDir) (bead_id : String) (agent_id : String)
    (reserved_at : String) (expires_at : String) : Bool × ReservationsDir :=
  if is_bead_reserved dir bead_id then (false, dir)
  else (true, (bead_id, ⟨bead_id, agent_id, reserved_at, expires_at, "reserved"⟩) :: dir)

/-- Remove the (first) reservation file of a bead. -/
def removeReservation (bead_id : String) : ReservationsDir → ReservationsDir
  | [] => []
  | (k, v) :: t => if k = bead_id then t else (k, v) :: removeReservation bead_id t

/-- `release_bead` from the source: delete the reservation file if present. -/
def release_bead (dir : ReservationsDir) (bead_id : String) : Bool × ReservationsDir :=
  if is_bead_reserved dir bead_id then (true, removeReservation bead_id dir)
  else (false, dir)

/-- `assign_next_bead` from the source: walk the ready beads and reserve
the first unreserved one. -/
def assign_next_bead (dir : ReservationsDir) (agent_id : String)
    (reserved_at : String) (expires_at : String) :
    List String → Option String × ReservationsDir
  | [] => (none, dir)
  | b :: bs =>
    if is_bead_reserved dir b then assign_next_bead dir agent_id reserved_at expires_at bs
    else
      let r := reserve_bead dir b agent_id reserved_at expires_at
      if r.1 then (some b, r.2)
      else assign_next_bead dir agent_id reserved_at expires_at bs

end BeadAssigner

/-! ## Skill Retrieval and Relevance Tracking Engine (modelled from the spec)

The engine itself (RelevanceScorer, SessionTrackingStore, GapRecorder,
IntentBooster, SkillRetrievalEngine) is described by the design document
but its implementation is not in the source tree; the definitions below
are modelled from the spec and say so. -/

namespace RelevanceScorer

/-- Modelled from the spec: the RelevanceScorer implementation is not in
the source tree.  "produce `similarity = 1 − distance`, clamp to `[0,1]`". -/
def similarity (distance : ℚ) : ℚ := max 0 (min 1 (1 - distance))

/-- Modelled from the spec: the RelevanceScorer implementation is not in
the source tree.  "compute `relevance_pct = round(similarity × 100)`". -/
def relevance_pct (distance : ℚ) : ℤ := round (similarity distance * 100)

end RelevanceScorer

/-- Modelled from the spec: the SessionTrackingStore implementation is not
in the source tree.  A persisted map from skill name to the maximum
relevance at which it has been surfaced this session; lookups read the
most recent entry for a name. -/
abbrev SessionTrackingStore := List (String × ℚ)

namespace SessionTrackingStore

/-- Modelled from the spec: "`get_max_relevance(skill_name) → float
(default 0)`". -/
def get_max_relevance (s : SessionTrackingStore) (name : String) : ℚ :=
  (s.lookup name).getD 0

/-- Modelled from the spec: "`record_shown(skill_name, relevance)` →
updates to `max(current, relevance)`". -/
def record_shown (s : SessionTrackingStore) (name : String) (r : ℚ) :
    SessionTrackingStore :=
  (name, max (get_max_relevance s name) r) :: s

/-- Modelled from the spec: "`reset()` → clears all entries". -/
def reset : SessionTrackingStore := []

/-- A sequence of `record_shown` calls applied in order. -/
def applyRecordShown (s : SessionTrackingStore) (calls : List (String × ℚ)) :
    SessionTrackingStore :=
  calls.foldl (fun t c => record_shown t c.1 c.2) s

end SessionTrackingStore

/-- Modelled from the spec: the GapRecorder implementation is not in the
source tree.  One record per distinct gap query context. -/
structure GapRecord where
  source_identifier : String
  domain_hints : List String
  content_preview : String
  best_match : Option String
  best_relevance : ℚ
  timestamp : String
deriving DecidableEq

abbrev GapStore := List GapRecord

namespace GapRecorder

/-- Modelled from the spec: suffix test used by domain-hint extraction. -/
def isSuffixL (pat s : String) : Bool := isPrefixL pat.data.reverse s.data.reverse

/-- Modelled from the spec: "recognized filename suffixes (mapped to
categories such as `configuration`, `documentation`)". -/
def suffixDomainTable : List (String × String) :=
  [(".json", "configuration"), (".yaml", "configuration"),
   (".toml", "configuration"), (".md", "documentation"),
   (".sql", "database"), (".py", "coding"), (".ts", "coding")]

/-- Modelled from the spec: "a fixed keyword→domain table scanned
case-insensitively over both the identifier and the content sample". -/
def keywordDomainTable : List (String × String) :=
  [("database", "database"), ("config", "configuration"),
   ("test", "testing"), ("deploy", "deployment"), ("document", "documentation")]

/-- Modelled from the spec: domain-hint extraction is a pure function of
`(source_identifier, content_sample)`; suffix hits unioned with keyword
hits, with the `["general"]` fallback so the result is never empty. -/
def domainHintsOf (source_identifier : String) (content_sample : String) :
    List String :=
  let fromSuffix := (suffixDomainTable.filter
    (fun p => isSuffixL p.1 source_identifier)).map Prod.snd
  let lowId := lowerStr source_identifier
  let lowC := lowerStr content_sample
  let fromKw := (keywordDomainTable.filter
    (fun p => pyIn p.1 lowId || pyIn p.1 lowC)).map Prod.snd
  let hints := (fromSuffix ++ fromKw).dedup
  if hints.isEmpty then ["general"] else hints

/-- Modelled from the spec: "`record_gap(source_identifier, content_sample,
best_match, best_relevance)`.  Deduplication key is `source_identifier`; a
second call with the same identifier in the same session is a no-op";
`content_preview` is the sample truncated to 200 characters. -/
def record_gap (gaps : GapStore) (source_identifier : String)
    (content_sample : String) (best_match : Option String)
    (best_relevance : ℚ) (timestamp : String) : GapStore :=
  if gaps.any (fun g => g.source_identifier == source_identifier) then gaps
  else gaps ++ [{ source_identifier := source_identifier
                  domain_hints := domainHintsOf source_identifier content_sample
                  content_preview := ⟨content_sample.data.take 200⟩
                  best_match := best_match
                  best_relevance := best_relevance
                  timestamp := timestamp }]

end GapRecorder

/-! ### IntentBooster rolling histories -/

/-- Modelled from the spec: one entry of the rolling working-context
history (timestamped text with the skills inferred from it). -/
structure WorkingContextEntry where
  timestamp : String
  text : String
  skills : List String
deriving DecidableEq

/-- Modelled from the spec: one recorded intent with its attached skills. -/
structure IntentEntry where
  timestamp : String
  text : String
  skills : List String
deriving DecidableEq

/-- Modelled from the spec: the per-session rolling histories, newest
first ("working-context capped at the 10 most recent entries, intent
history capped at 20, tool-usage log capped at 50"). -/
structure SessionContext where
  working_context : List WorkingContextEntry
  intent_history : List IntentEntry
  tool_usage : List String
deriving DecidableEq

def WORKING_CONTEXT_CAP : Nat := 10
def INTENT_HISTORY_CAP : Nat := 20
def TOOL_USAGE_CAP : Nat := 50

/-- Push an entry onto a newest-first rolling history, keeping the most
recent `cap` entries. -/
def pushCapped (cap : Nat) (x : α) (xs : List α) : List α := (x :: xs).take cap

namespace SessionContext

/-- Modelled from the spec: store one working-context entry, keeping the
10 most recent. -/
def add_working_context (s : SessionContext) (e : WorkingContextEntry) : SessionContext :=
  { s with working_context := pushCapped WORKING_CONTEXT_CAP e s.working_context }

/-- Modelled from the spec: record one intent, keeping the 20 most recent. -/
def add_intent (s : SessionContext) (e : IntentEntry) : SessionContext :=
  { s with intent_history := pushCapped INTENT_HISTORY_CAP e s.intent_history }

/-- Modelled from the spec: log one tool usage, keeping the 50 most recent. -/
def add_tool_usage (s : SessionContext) (t : String) : SessionContext :=
  { s with tool_usage := pushCapped TOOL_USAGE_CAP t s.tool_usage }

/-- The empty session context. -/
def init : SessionContext := ⟨[], [], []⟩

/-- The history bounds of the data model. -/
abbrev Bounded (s : SessionContext) : Prop :=
  s.working_context.length ≤ WORKING_CONTEXT_CAP ∧
  s.intent_history.length ≤ INTENT_HISTORY_CAP ∧
  s.tool_usage.length ≤ TOOL_USAGE_CAP

end SessionContext

/-- A store/update operation on the rolling histories. -/
inductive SessionOp
  | wc (e : WorkingContextEntry)
  | intent (e : IntentEntry)
  | tool (t : String)

/-- Apply one store/update operation. -/
def SessionContext.applyOp (s : SessionContext) : SessionOp → SessionContext
  | .wc e => s.add_working_context e
  | .intent e => s.add_intent e
  | .tool t => s.add_tool_usage t

/-- Modelled from the spec: the IntentBooster boost for one skill name,
`AGENTIC_BOOST_FACTOR` summed once per occurrence of the name across the
working-context history and the skills of the last 3 recorded intents. -/
def AGENTIC_BOOST_FACTOR : ℚ := 15/100

def SessionContext.boost_for (s : SessionContext) (name : String) : ℚ :=
  let occ := (s.working_context.countP (fun e => e.skills.contains name))
           + ((s.intent_history.take 3).countP (fun e => e.skills.contains name))
  AGENTIC_BOOST_FACTOR * occ

/-! ### SkillRetrievalEngine -/

/-- Modelled from the spec: the VectorIndex collaborator, answering
nearest-neighbor queries with `(name, distance)` pairs ordered by
distance. -/
structure VectorIndex where
  query : String → Nat → List (String × ℚ)

/-- Modelled from the spec: the structured result of one retrieval. -/
structure QueryResult where
  surfaced : List (String × ℚ)
  best_match : Option String
  best_relevance : ℚ
  is_gap : Bool
deriving DecidableEq

/-- The engine-owned per-session state: shown-skill maximums and the gap list. -/
structure EngineState where
  shown : SessionTrackingStore
  gaps : GapStore
deriving DecidableEq

def RENOTIFY_THRESHOLD : ℚ := 20/100

namespace SkillRetrievalEngine

/-- Modelled from the spec: a surfaceable skill is retained only when it
is unseen this session or its current similarity exceeds the previously
recorded maximum by at least `RENOTIFY_THRESHOLD`. -/
def should_resurface (shown : SessionTrackingStore) (name : String) (sim : ℚ) : Bool :=
  match shown.lookup name with
  | none => true
  | some prev => if prev + RENOTIFY_THRESHOLD ≤ sim then true else false

/-- Modelled from the spec: the SkillRetrievalEngine implementation is not
in the source tree.  `retrieve(query_text, mode, max_results,
min_relevance)` per the design steps: an unavailable or uninitialized
index degrades to no results with `is_gap = true` and no exception;
otherwise query `max_results + 2` candidates, boost distances in agentic
mode, score, partition into surfaceable, record a gap (deduplicated by
source identifier) when nothing is surfaceable, and otherwise apply the
re-notification policy and update the shown-skill maximums for every
skill ultimately surfaced. -/
def retrieve (index : Option VectorIndex) (st : EngineState)
    (query_text : String) (source_identifier : String) (agentic : Bool)
    (ctx : SessionContext) (max_results : Nat) (min_relevance : ℚ)
    (timestamp : String) : QueryResult × EngineState :=
  match index with
  | none => ({ surfaced := [], best_match := none, best_relevance := 0, is_gap := true }, st)
  | some ix =>
    let raw := ix.query query_text (max_results + 2)
    let adjusted :=
      if agentic then raw.map (fun p => (p.1, max 0 (p.2 - ctx.boost_for p.1))) else raw
    let scored := adjusted.map (fun p => (p.1, RelevanceScorer.similarity p.2))
    let best_match := scored.head?.map Prod.fst
    let best_relevance := (scored.head?.map Prod.snd).getD 0
    let surfaceable := (scored.filter (fun p => min_relevance ≤ p.2)).take max_results
    if surfaceable.isEmpty then
      ({ surfaced := [], best_match := best_match, best_relevance := best_relevance,
         is_gap := true },
       { st with gaps := GapRecorder.record_gap st.gaps source_identifier query_text
                           best_match best_relevance timestamp })
    else
      let retained := surfaceable.filter (fun p => should_resurface st.shown p.1 p.2)
      let shown' := retained.foldl
        (fun s p => SessionTrackingStore.record_shown s p.1 p.2) st.shown
      ({ surfaced := retained, best_match := best_match, best_relevance := best_relevance,
         is_gap := false },
       { st with shown := shown' })

end SkillRetrievalEngine

/-! ## Concrete instantiations and projections used by the scenarios -/

/-- A decoder on which every line is malformed: the concrete lines fed to
it in the corrupt-store scenarios are not valid JSON, so `json.loads`
raises on each of them. -/
def rejectAllDec : String → Option MemoryRecord := fun _ => none

/-- The count-and-report fields of a `clean_memories` result (everything
except the echoed `dry_run` flag). -/
def SimpleMemoryService.countsOf (r : SimpleMemoryService.CleanResults) :
    Nat × Nat × Nat × Nat × List String × List String :=
  (r.scanned_files, r.memories_before, r.memories_deleted, r.memories_kept,
   r.affected_agents, r.affected_files)

/-! ## Helper lemmas -/

theorem lastN_length_le (n : Nat) (xs : List α) : (lastN n xs).length ≤ n := by
  simp only [lastN, List.length_drop]
  omega

theorem pushCapped_length_le (cap : Nat) (x : α) (xs : List α) :
    (pushCapped cap x xs).length ≤ cap := by
  simp only [pushCapped, List.length_take]
  omega

theorem get_max_relevance_record_shown (s : SessionTrackingStore) (n m : String) (r : ℚ) :
    (s.record_shown n r).get_max_relevance m =
      if m = n then max (s.get_max_relevance n) r else s.get_max_relevance m := by
  by_cases h : m = n
  · subst h
    simp [SessionTrackingStore.record_shown, SessionTrackingStore.get_max_relevance,
      List.lookup]
  · have hb : (m == n) = false := by simp [h]
    simp [SessionTrackingStore.record_shown, SessionTrackingStore.get_max_relevance,
      List.lookup, hb, h]

theorem get_max_relevance_le_record_shown (s : SessionTrackingStore) (n m : String) (r : ℚ) :
    s.get_max_relevance m ≤ (s.record_shown n r).get_max_relevance m := by
  rw [get_max_relevance_record_shown]
  by_cases h : m = n
  · subst h; simp [le_max_left]
  · simp [h]

theorem record_gap_mem_after (gaps : GapStore) (id c : String) (bm : Option String)
    (br : ℚ) (ts : String) :
    (GapRecorder.record_gap gaps id c bm br ts).any
      (fun g => g.source_identifier == id) = true := by
  unfold GapRecorder.record_gap
  by_cases h : gaps.any (fun g => g.source_identifier == id)
  · simp [h]
  · simp [h]

theorem record_gap_of_mem (gaps : GapStore) (id c : String) (bm : Option String)
    (br : ℚ) (ts : String)
    (h : gaps.any (fun g => g.source_identifier == id) = true) :
    GapRecorder.record_gap gaps id c bm br ts = gaps := by
  unfold GapRecorder.record_gap
  rw [if_pos h]

theorem cleanFileStep_dry_frame (dec : String → Option MemoryRecord)
    (enc : MemoryRecord → String) (ptime : String → Option Int) (cutoff : Int)
    (scope : String) (acc : SimpleMemoryService.CleanResults)
    (f : String × List String) :
    (SimpleMemoryService.cleanFileStep dec enc ptime cutoff scope true acc f).2 = f := by
  by_cases hm : (SimpleMemoryService.readMemoryLinesSkip dec f.2).isEmpty
  · simp [SimpleMemoryService.cleanFileStep, hm]
  · simp [SimpleMemoryService.cleanFileStep, hm]

theorem cleanFileStep_countsOf_congr (dec : String → Option MemoryRecord)
    (enc : MemoryRecord → String) (ptime : String → Option Int) (cutoff : Int)
    (scope : String) (dry dry' : Bool)
    (acc acc' : SimpleMemoryService.CleanResults)
    (h : SimpleMemoryService.countsOf acc = SimpleMemoryService.countsOf acc')
    (f : String × List String) :
    SimpleMemoryService.countsOf
        (SimpleMemoryService.cleanFileStep dec enc ptime cutoff scope dry acc f).1 =
      SimpleMemoryService.countsOf
        (SimpleMemoryService.cleanFileStep dec enc ptime cutoff scope dry' acc' f).1 := by
  obtain ⟨h1, h2, h3, h4, h5, h6⟩ :
      acc.scanned_files = acc'.scanned_files ∧
      acc.memories_before = acc'.memories_before ∧
      acc.memories_deleted = acc'.memories_deleted ∧
      acc.memories_kept = acc'.memories_kept ∧
      acc.affected_agents = acc'.affected_agents ∧
      acc.affected_files = acc'.affected_files := by
    simpa [SimpleMemoryService.countsOf, Prod.ext_iff] using h
  by_cases hm : (SimpleMemoryService.readMemoryLinesSkip dec f.2).isEmpty
  · simp [SimpleMemoryService.cleanFileStep, SimpleMemoryService.countsOf,
      hm, h1, h2, h3, h4, h5, h6]
  · simp [SimpleMemoryService.cleanFileStep, SimpleMemoryService.countsOf,
      hm, h1, h2, h3, h4, h5, h6]

theorem cleanFilesGo_dry_frame (dec : String → Option MemoryRecord)
    (enc : MemoryRecord → String) (ptime : String → Option Int) (cutoff : Int)
    (scope : String) :
    ∀ (fs : List (String × List String)) (acc : SimpleMemoryService.CleanResults),
    (SimpleMemoryService.cleanFilesGo dec enc ptime cutoff scope true acc fs).2 = fs := by
  intro fs
  induction fs with
  | nil => intro acc; rfl
  | cons f rest ih =>
    intro acc
    simp only [SimpleMemoryService.cleanFilesGo]
    rw [cleanFileStep_dry_frame, ih]

theorem cleanFilesGo_countsOf_congr (dec : String → Option MemoryRecord)
    (enc : MemoryRecord → String) (ptime : String → Option Int) (cutoff : Int)
    (scope : String) (dry dry' : Bool) :
    ∀ (fs : List (String × List String)) (acc acc' : SimpleMemoryService.CleanResults),
    SimpleMemoryService.countsOf acc = SimpleMemoryService.countsOf acc' →
    SimpleMemoryService.countsOf
        (SimpleMemoryService.cleanFilesGo dec enc ptime cutoff scope dry acc fs).1 =
      SimpleMemoryService.countsOf
        (SimpleMemoryService.cleanFilesGo dec enc ptime cutoff scope dry' acc' fs).1 := by
  intro fs
  induction fs with
  | nil => intro acc acc' h; exact h
  | cons f rest ih =>
    intro acc acc' h
    simp only [SimpleMemoryService.cleanFilesGo]
    exact ih _ _ (cleanFileStep_countsOf_congr dec enc ptime cutoff scope dry dry' acc acc' h f)

theorem replaceFile_lookup_self :
    ∀ (storage : Storage) (a : String) (lines : List String),
    storage.lookup a = some lines →
    SimpleMemoryService.replaceFile a lines storage = storage := by
  intro storage
  induction storage with
  | nil => intro a lines h; cases h
  | cons kv t ih =>
    intro a lines h
    by_cases hk : kv.1 = a
    · have hb : (a == kv.1) = true := by simp [hk]
      rw [List.lookup] at h
      simp only [hb] at h
      cases h
      simp [SimpleMemoryService.replaceFile, ← hk]
    · have hb : (a == kv.1) = false := by simp; exact fun he => hk he.symm
      rw [List.lookup] at h
      simp only [hb] at h
      simp [SimpleMemoryService.replaceFile, hk, ih a lines h]

/-! ## Claim theorems -/

/-- C8: For every two query strings `q1` and `q2` and every fixed stored
state, agent name, bead filter and limit,
`SimpleMemoryService.retrieve_relevant_memories` returns the same result:
the fallback retrieval is selected purely by agent file, bead filter and
recency, and is independent of the query text. -/
theorem C8_fallback_retrieval_query_independent :
    ∀ (dec : String → Option MemoryRecord) (storage : Storage)
      (q1 q2 : String) (agent_name bead_id : Option String) (limit : Nat),
    SimpleMemoryService.retrieve_relevant_memories dec storage q1 agent_name bead_id limit =
    SimpleMemoryService.retrieve_relevant_memories dec storage q2 agent_name bead_id limit :=
  fun _ _ _ _ _ _ _ => rfl

/-- C10: `BeadAssigner.reserve_bead` returns `True` and creates the
reservation exactly when no reservation for the bead existed beforehand;
when it returns `False` the reservation store is unchanged; and after any
`reserve_bead` call on a bead, a further reservation attempt for that
bead fails until it is released. -/
theorem C10_reserve_bead_exclusive :
    ∀ (dir : ReservationsDir) (b a ra ea a2 ra2 ea2 : String),
    ((BeadAssigner.reserve_bead dir b a ra ea).1 = true ↔
      BeadAssigner.is_bead_reserved dir b = false)
    ∧ ((BeadAssigner.reserve_bead dir b a ra ea).1 = false →
        (BeadAssigner.reserve_bead dir b a ra ea).2 = dir)
    ∧ ((BeadAssigner.reserve_bead dir b a ra ea).1 = true →
        (BeadAssigner.reserve_bead dir b a ra ea).2 =
          (b, ⟨b, a, ra, ea, "reserved"⟩) :: dir)
    ∧ (BeadAssigner.reserve_bead
        (BeadAssigner.reserve_bead dir b a ra ea).2 b a2 ra2 ea2).1 = false := by
  intro dir b a ra ea a2 ra2 ea2
  by_cases h : BeadAssigner.is_bead_reserved dir b
  · have h1 : BeadAssigner.reserve_bead dir b a ra ea = (false, dir) := by
      simp [BeadAssigner.reserve_bead, h]
    rw [h1]
    refine ⟨by simp [h], fun _ => rfl, by simp, ?_⟩
    simp [BeadAssigner.reserve_bead, h]
  · have h1 : BeadAssigner.reserve_bead dir b a ra ea =
        (true, (b, ⟨b, a, ra, ea, "reserved"⟩) :: dir) := by
      simp [BeadAssigner.reserve_bead, h]
    rw [h1]
    refine ⟨by simp [h], by simp, fun _ => rfl, ?_⟩
    have hl : List.lookup b ((b, (⟨b, a, ra, ea, "reserved"⟩ : Reservation)) :: dir)
        = some ⟨b, a, ra, ea, "reserved"⟩ := by
      simp [List.lookup]
    have h2 : BeadAssigner.is_bead_reserved
        ((b, (⟨b, a, ra, ea, "reserved"⟩ : Reservation)) :: dir) b = true := by
      simp [BeadAssigner.is_bead_reserved, hl]
    simp [BeadAssigner.reserve_bead, h2]

/-- C4: within a session, `record_shown(name, r)` sets the stored value
to `max(previous, r)`, and `get_max_relevance(name)` never decreases
across any sequence of successive `record_shown` calls. -/
theorem C4_record_shown_monotone :
    (∀ (s : SessionTrackingStore) (n : String) (r : ℚ),
      (s.record_shown n r).get_max_relevance n = max (s.get_max_relevance n) r)
    ∧ ∀ (s : SessionTrackingStore) (calls : List (String × ℚ)) (name : String),
      s.get_max_relevance name ≤
        (SessionTrackingStore.applyRecordShown s calls).get_max_relevance name := by
  constructor
  · intro s n r
    rw [get_max_relevance_record_shown]
    simp
  · intro s calls
    induction calls generalizing s with
    | nil => intro name; simp [SessionTrackingStore.applyRecordShown]
    | cons c rest ih =>
      intro name
      have h1 := get_max_relevance_le_record_shown s c.1 name c.2
      have h2 := ih (s.record_shown c.1 c.2) name
      simp only [SessionTrackingStore.applyRecordShown, List.foldl_cons] at h2 ⊢
      exact le_trans h1 h2

/-- C6: `record_gap` is idempotent in its source identifier within a
session: a second call with the same identifier is a no-op leaving the
gap store unchanged, and two calls starting from the empty session store
yield exactly one `GapRecord` for that identifier. -/
theorem C6_record_gap_dedup :
    (∀ (gaps : GapStore) (id c : String) (bm : Option String) (br : ℚ) (ts : String)
       (c2 : String) (bm2 : Option String) (br2 : ℚ) (ts2 : String),
      GapRecorder.record_gap (GapRecorder.record_gap gaps id c bm br ts) id c2 bm2 br2 ts2
        = GapRecorder.record_gap gaps id c bm br ts)
    ∧ ∀ (id c : String) (bm : Option String) (br : ℚ) (ts : String)
        (c2 : String) (bm2 : Option String) (br2 : ℚ) (ts2 : String),
      ((GapRecorder.record_gap (GapRecorder.record_gap [] id c bm br ts)
          id c2 bm2 br2 ts2).countP
        (fun g => g.source_identifier == id)) = 1 := by
  have key : ∀ (gaps : GapStore) (id c : String) (bm : Option String) (br : ℚ) (ts : String)
      (c2 : String) (bm2 : Option String) (br2 : ℚ) (ts2 : String),
      GapRecorder.record_gap (GapRecorder.record_gap gaps id c bm br ts) id c2 bm2 br2 ts2
        = GapRecorder.record_gap gaps id c bm br ts := by
    intro gaps id c bm br ts c2 bm2 br2 ts2
    exact record_gap_of_mem _ id c2 bm2 br2 ts2 (record_gap_mem_after gaps id c bm br ts)
  refine ⟨key, ?_⟩
  intro id c bm br ts c2 bm2 br2 ts2
  rw [key]
  simp [GapRecorder.record_gap, List.countP_cons]

/-- C2: a retrieval made while the backing similarity store is unavailable
or uninitialized degrades to the empty no-results outcome with
`is_gap = true` and propagates no exception: the engine with no
VectorIndex returns the empty result and leaves the session state
untouched, and the unified memory service catches a failing Memlayer call
(or a missing Memlayer service) and returns the fallback result instead
of propagating the error. -/
theorem C2_unavailable_index_degrades :
    (∀ (st : EngineState) (q src : String) (ag : Bool) (ctx : SessionContext)
       (mr : Nat) (minr : ℚ) (ts : String),
      SkillRetrievalEngine.retrieve none st q src ag ctx mr minr ts =
        ({ surfaced := [], best_match := none, best_relevance := 0, is_gap := true }, st))
    ∧ (∀ (e : String) (dec : String → Option MemoryRecord) (storage : Storage)
        (q : String) (a b : Option String) (l : Nat),
      UnifiedMemoryService.retrieve_relevant_memories true true (.error e) dec storage q a b l =
        SimpleMemoryService.retrieve_relevant_memories dec storage q a b l)
    ∧ ∀ (u : Bool) (r : Except String Organized) (dec : String → Option MemoryRecord)
        (storage : Storage) (q : String) (a b : Option String) (l : Nat),
      UnifiedMemoryService.retrieve_relevant_memories u false r dec storage q a b l =
        SimpleMemoryService.retrieve_relevant_memories dec storage q a b l := by
  refine ⟨fun _ _ _ _ _ _ _ _ => rfl, fun _ _ _ _ _ _ _ => rfl, ?_⟩
  intro u r dec storage q a b l
  simp [UnifiedMemoryService.retrieve_relevant_memories]

/-- C10 witness: the reservation laws applied to the empty reservation
directory and concrete bead and agent identifiers. -/
theorem C10_reserve_bead_exclusive_witness :
    ((BeadAssigner.reserve_bead [] "bead-1" "agent-1" "t0" "t4").1 = true ↔
      BeadAssigner.is_bead_reserved [] "bead-1" = false)
    ∧ ((BeadAssigner.reserve_bead [] "bead-1" "agent-1" "t0" "t4").1 = false →
        (BeadAssigner.reserve_bead [] "bead-1" "agent-1" "t0" "t4").2 = [])
    ∧ ((BeadAssigner.reserve_bead [] "bead-1" "agent-1" "t0" "t4").1 = true →
        (BeadAssigner.reserve_bead [] "bead-1" "agent-1" "t0" "t4").2 =
          ("bead-1", ⟨"bead-1", "agent-1", "t0", "t4", "reserved"⟩) :: [])
    ∧ (BeadAssigner.reserve_bead
        (BeadAssigner.reserve_bead [] "bead-1" "agent-1" "t0" "t4").2
        "bead-1" "agent-2" "t1" "t5").1 = false :=
  C10_reserve_bead_exclusive [] "bead-1" "agent-1" "t0" "t4" "agent-2" "t1" "t5"

/-- C3: for a distance in `[0,1]` the scorer produces
`similarity = 1 - distance` (the clamp is the identity there) and
`relevance_pct = round(similarity * 100)`, which lies in `[0, 100]`. -/
theorem C3_relevance_pct_bounds (d : ℚ) (h0 : 0 ≤ d) (h1 : d ≤ 1) :
    RelevanceScorer.similarity d = 1 - d
    ∧ RelevanceScorer.relevance_pct d = round ((1 - d) * 100)
    ∧ 0 ≤ RelevanceScorer.relevance_pct d
    ∧ RelevanceScorer.relevance_pct d ≤ 100 := by
  have hs : RelevanceScorer.similarity d = 1 - d := by
    unfold RelevanceScorer.similarity
    rw [min_eq_right (by linarith), max_eq_right (by linarith)]
  have hp : RelevanceScorer.relevance_pct d = round ((1 - d) * 100) := by
    unfold RelevanceScorer.relevance_pct
    rw [hs]
  refine ⟨hs, hp, ?_, ?_⟩
  · rw [hp, round_eq]
    exact Int.le_floor.mpr (by push_cast; nlinarith)
  · rw [hp, round_eq]
    have hlt : ⌊(1 - d) * 100 + 1 / 2⌋ < 101 := Int.floor_lt.mpr (by push_cast; nlinarith)
    omega

/-- C3 witness: the scorer laws at distance 0. -/
theorem C3_relevance_pct_bounds_witness :
    RelevanceScorer.similarity 0 = 1 - 0
    ∧ RelevanceScorer.relevance_pct 0 = round ((1 - (0:ℚ)) * 100)
    ∧ 0 ≤ RelevanceScorer.relevance_pct 0
    ∧ RelevanceScorer.relevance_pct 0 ≤ 100 :=
  C3_relevance_pct_bounds 0 le_rfl zero_le_one

/-- C5: a skill first surfaced at similarity `0.40` (distance `0.60`) is
recorded at `0.40`; a second occurrence at similarity `0.55` is below the
`0.20` re-notify threshold, is not re-surfaced, and leaves the recorded
maximum at `0.40`; a third occurrence at similarity `0.65` exceeds the
recorded `0.40` by `0.25` and is re-surfaced, after which the recorded
maximum is `0.65`. -/
theorem C5_renotify_scenario :
    SkillRetrievalEngine.retrieve (some ⟨fun _ _ => [("ws", 3/5)]⟩) ⟨[], []⟩
        "q1" "manual" false SessionContext.init 5 (1/4) "t1" =
      ({ surfaced := [("ws", 2/5)], best_match := some "ws", best_relevance := 2/5,
         is_gap := false }, ⟨[("ws", 2/5)], []⟩)
    ∧ SkillRetrievalEngine.retrieve (some ⟨fun _ _ => [("ws", 9/20)]⟩) ⟨[("ws", 2/5)], []⟩
        "q2" "manual" false SessionContext.init 5 (1/4) "t2" =
      ({ surfaced := [], best_match := some "ws", best_relevance := 11/20,
         is_gap := false }, ⟨[("ws", 2/5)], []⟩)
    ∧ SkillRetrievalEngine.retrieve (some ⟨fun _ _ => [("ws", 7/20)]⟩) ⟨[("ws", 2/5)], []⟩
        "q3" "manual" false SessionContext.init 5 (1/4) "t3" =
      ({ surfaced := [("ws", 13/20)], best_match := some "ws", best_relevance := 13/20,
         is_gap := false }, ⟨[("ws", 13/20), ("ws", 2/5)], []⟩)
    ∧ SessionTrackingStore.get_max_relevance [("ws", 13/20), ("ws", 2/5)] "ws" = 13/20 := by
  refine ⟨?_, ?_, ?_, ?_⟩ <;>
    norm_num [SkillRetrievalEngine.retrieve, SkillRetrievalEngine.should_resurface,
      RelevanceScorer.similarity, SessionTrackingStore.record_shown,
      SessionTrackingStore.get_max_relevance, RENOTIFY_THRESHOLD, List.lookup,
      max_def, min_def]

/-- C7: the rolling session histories are bounded (working context at 10,
intent history at 20, tool usage at 50) and every store/update operation,
and every sequence of them, preserves the bounds; correspondingly in the
fallback memory service the extracted category lists are capped at
10/5/5/5 entries, a summary covers at most the 20 most recent memories,
and the cleanup keeps at most `keep` (default 50) records. -/
theorem C7_rolling_histories_bounded :
    (∀ (s : SessionContext) (op : SessionOp), s.Bounded → (s.applyOp op).Bounded)
    ∧ (∀ (s : SessionContext) (ops : List SessionOp), s.Bounded →
        (ops.foldl SessionContext.applyOp s).Bounded)
    ∧ (∀ (s : SessionContext) (e : WorkingContextEntry),
        (s.add_working_context e).working_context.length ≤ 10)
    ∧ (∀ (s : SessionContext) (e : IntentEntry),
        (s.add_intent e).intent_history.length ≤ 20)
    ∧ (∀ (s : SessionContext) (t : String),
        (s.add_tool_usage t).tool_usage.length ≤ 50)
    ∧ (∀ (now content agent : String) (bead : Option String),
        (SimpleMemoryService.extract_memories now content agent bead).code_changes.length ≤ 10
        ∧ (SimpleMemoryService.extract_memories now content agent bead).decisions.length ≤ 5
        ∧ (SimpleMemoryService.extract_memories now content agent bead).context.length ≤ 5
        ∧ (SimpleMemoryService.extract_memories now content agent bead).errors.length ≤ 5)
    ∧ (∀ (dec : String → Option MemoryRecord) (storage : Storage) (a : String)
        (hours : Nat) (s : SimpleMemoryService.AgentSummary),
        SimpleMemoryService.get_agent_summary dec storage a hours = .ok s →
        s.total_memories ≤ 20)
    ∧ ∀ (dec : String → Option MemoryRecord) (enc : MemoryRecord → String)
        (lines : List String) (keep : Nat) (out : List String),
        SimpleMemoryService.cleanup_old_memories dec enc (some lines) keep = .ok (some out) →
        out.length ≤ keep := by
  have hstep : ∀ (s : SessionContext) (op : SessionOp), s.Bounded → (s.applyOp op).Bounded := by
    intro s op hb
    obtain ⟨b1, b2, b3⟩ := hb
    cases op with
    | wc e => exact ⟨pushCapped_length_le _ _ _, b2, b3⟩
    | intent e => exact ⟨b1, pushCapped_length_le _ _ _, b3⟩
    | tool t => exact ⟨b1, b2, pushCapped_length_le _ _ _⟩
  refine ⟨hstep, ?_, ?_, ?_, ?_, ?_, ?_, ?_⟩
  · intro s ops
    induction ops generalizing s with
    | nil => intro hb; exact hb
    | cons op rest ih =>
      intro hb
      exact ih _ (hstep s op hb)
  · intro s e; exact pushCapped_length_le _ _ _
  · intro s e; exact pushCapped_length_le _ _ _
  · intro s t; exact pushCapped_length_le _ _ _
  · intro now content agent bead
    refine ⟨?_, ?_, ?_, ?_⟩ <;>
      simp [SimpleMemoryService.extract_memories, List.length_take]
  · intro dec storage a hours s h
    unfold SimpleMemoryService.get_agent_summary at h
    split at h
    · cases h; simp
    · split at h
      · cases h
      · cases h
        exact lastN_length_le 20 _
  · intro dec enc lines keep out h
    unfold SimpleMemoryService.cleanup_old_memories at h
    cases hr : SimpleMemoryService.readMemoryLines dec lines with
    | error e => simp [hr] at h
    | ok memories =>
      simp only [hr] at h
      have hout : (lastN keep memories).map enc = out := by
        simpa using h
      rw [← hout, List.length_map]
      exact lastN_length_le keep _

/-- C7 witness: the bound-preservation facts applied to the empty session
context, one concrete operation sequence, and a concrete empty store. -/
theorem C7_rolling_histories_bounded_witness :
    (SessionContext.init.applyOp (SessionOp.tool "bash")).Bounded
    ∧ ([SessionOp.tool "bash", SessionOp.tool "git"].foldl
        SessionContext.applyOp SessionContext.init).Bounded
    ∧ (⟨"a", 0, [], []⟩ : SimpleMemoryService.AgentSummary).total_memories ≤ 20
    ∧ ([] : List String).length ≤ 50 :=
  ⟨C7_rolling_histories_bounded.1 SessionContext.init (SessionOp.tool "bash")
      ⟨Nat.zero_le _, Nat.zero_le _, Nat.zero_le _⟩,
   C7_rolling_histories_bounded.2.1 SessionContext.init
      [SessionOp.tool "bash", SessionOp.tool "git"]
      ⟨Nat.zero_le _, Nat.zero_le _, Nat.zero_le _⟩,
   C7_rolling_histories_bounded.2.2.2.2.2.2.1 (fun _ => none) [] "a" 24 ⟨"a", 0, [], []⟩ rfl,
   C7_rolling_histories_bounded.2.2.2.2.2.2.2 (fun _ => none) (fun _ => "") [] 50 [] rfl⟩

/-- C1 counterexample: a per-session store file holding one malformed
line makes both `retrieve_relevant_memories` and `_cleanup_old_memories`
propagate the JSON decode error instead of treating the store as empty
and returning normally — refuting the claim as stated for corrupt (as
opposed to missing) files. -/
theorem C1_corrupt_store_raises_counterexample :
    SimpleMemoryService.retrieve_relevant_memories rejectAllDec
        [("alice", ["not json"])] "q" (some "alice") none 5 = .error "JSONDecodeError"
    ∧ SimpleMemoryService.cleanup_old_memories rejectAllDec (fun _ => "")
        (some ["not json"]) 50 = .error "JSONDecodeError" :=
  ⟨rfl, rfl⟩

/-- C1 (amended): a missing store file is treated as empty state and the
read returns normally — `retrieve_relevant_memories` gives the empty
categories and `_cleanup_old_memories` returns without touching anything
— but a malformed non-blank line in an existing file makes the strict
JSONL reader used by `retrieve_relevant_memories` and
`_cleanup_old_memories` propagate the decode error; only the tolerant
reader used by `clean_memories` skips such a line. -/
theorem C1_missing_store_empty_corrupt_raises :
    (∀ (dec : String → Option MemoryRecord) (storage : Storage) (q : String)
       (a : String) (b : Option String) (l : Nat),
      a ≠ "" → storage.lookup a = none →
      SimpleMemoryService.retrieve_relevant_memories dec storage q (some a) b l
        = .ok SimpleMemoryService.empty_categories)
    ∧ (∀ (dec : String → Option MemoryRecord) (enc : MemoryRecord → String) (keep : Nat),
        SimpleMemoryService.cleanup_old_memories dec enc none keep = .ok none)
    ∧ ∀ (dec : String → Option MemoryRecord) (line : String) (rest : List String),
        pyStrip line ≠ "" → dec line = none →
        SimpleMemoryService.readMemoryLines dec (line :: rest) = .error "JSONDecodeError"
        ∧ SimpleMemoryService.readMemoryLinesSkip dec (line :: rest)
            = SimpleMemoryService.readMemoryLinesSkip dec rest := by
  refine ⟨?_, fun _ _ _ => rfl, ?_⟩
  · intro dec storage q a b l ha hl
    simp only [SimpleMemoryService.retrieve_relevant_memories]
    rw [if_neg ha, hl]
  · intro dec line rest hs hd
    constructor
    · simp only [SimpleMemoryService.readMemoryLines]
      rw [if_neg hs, hd]
    · simp only [SimpleMemoryService.readMemoryLinesSkip]
      rw [if_neg hs, hd]

/-- C1 witness: the amended behavior at concrete inputs: retrieval for an
agent whose file is absent yields the empty categories, and a concrete
undecodable line makes the strict reader raise while the tolerant reader
used by `clean_memories` skips it. -/
theorem C1_missing_store_empty_witness :
    SimpleMemoryService.retrieve_relevant_memories rejectAllDec [] "q" (some "alice") none 5
      = .ok SimpleMemoryService.empty_categories
    ∧ (SimpleMemoryService.readMemoryLines rejectAllDec ["not json"] = .error "JSONDecodeError"
       ∧ SimpleMemoryService.readMemoryLinesSkip rejectAllDec ["not json"]
           = SimpleMemoryService.readMemoryLinesSkip rejectAllDec []) :=
  ⟨C1_missing_store_empty_corrupt_raises.1 rejectAllDec [] "q" "alice" none 5
      (by decide) rfl,
   C1_missing_store_empty_corrupt_raises.2.2 rejectAllDec "not json" [] (by decide) rfl⟩

/-- C9: `clean_memories` with `dry_run = True` leaves every memory file
unchanged while reporting exactly the counts (scanned files, memories
before, deleted, kept, and the affected lists) that the corresponding
real run would report. -/
theorem C9_clean_memories_dry_run_frame :
    ∀ (dec : String → Option MemoryRecord) (enc : MemoryRecord → String)
      (ptime : String → Option Int) (cutoff : Int) (storage : Storage)
      (agent_name : Option String) (scope : String),
    (SimpleMemoryService.clean_memories dec enc ptime cutoff storage agent_name scope true).2
      = storage
    ∧ SimpleMemoryService.countsOf
        (SimpleMemoryService.clean_memories dec enc ptime cutoff storage agent_name scope true).1
      = SimpleMemoryService.countsOf
        (SimpleMemoryService.clean_memories dec enc ptime cutoff storage agent_name scope false).1 := by
  intro dec enc ptime cutoff storage agent_name scope
  have hinit : SimpleMemoryService.countsOf ⟨0, 0, 0, 0, [], [], true⟩ =
      SimpleMemoryService.countsOf ⟨0, 0, 0, 0, [], [], false⟩ := rfl
  unfold SimpleMemoryService.clean_memories
  by_cases hemp : storage.isEmpty
  · simp [hemp, SimpleMemoryService.countsOf]
  · simp only [hemp, if_false]
    cases agent_name with
    | none =>
      exact ⟨cleanFilesGo_dry_frame dec enc ptime cutoff scope storage _,
        cleanFilesGo_countsOf_congr dec enc ptime cutoff scope true false storage _ _ hinit⟩
    | some a =>
      by_cases ha : a = ""
      · simp only [ha, if_pos rfl]
        exact ⟨cleanFilesGo_dry_frame dec enc ptime cutoff scope storage _,
          cleanFilesGo_countsOf_congr dec enc ptime cutoff scope true false storage _ _ hinit⟩
      · simp only [if_neg ha]
        cases hl : storage.lookup a with
        | none => exact ⟨by simp, hinit⟩
        | some lines =>
          constructor
          · show SimpleMemoryService.replaceFile a
                (SimpleMemoryService.cleanFileStep dec enc ptime cutoff scope true
                  ⟨0, 0, 0, 0, [], [], true⟩ (a, lines)).2.2 storage = storage
            rw [cleanFileStep_dry_frame dec enc ptime cutoff scope
              ⟨0, 0, 0, 0, [], [], true⟩ (a, lines)]
            exact replaceFile_lookup_self storage a lines hl
          · show SimpleMemoryService.countsOf
                (SimpleMemoryService.cleanFileStep dec enc ptime cutoff scope true
                  ⟨0, 0, 0, 0, [], [], true⟩ (a, lines)).1
              = SimpleMemoryService.countsOf
                (SimpleMemoryService.cleanFileStep dec enc ptime cutoff scope false
                  ⟨0, 0, 0, 0, [], [], false⟩ (a, lines)).1
            exact cleanFileStep_countsOf_congr dec enc ptime cutoff scope true false _ _
              hinit (a, lines)

